import Mathlib

/-!
Shallow embedding of the NMDownloader client layers:
`src/utils/authorization.py`, `src/utils/nexus_queries.py`,
`src/utils/nexus_interface.py` and `src/utils/mod_download.py`.

Python exceptions are modelled with `Except PyErr`; Python values that may
be of several runtime types are modelled with `PyVal`; decoded JSON bodies
with `JsonVal`.  File-system and network effects are passed explicitly:
a file system is a map from path to optional content, and the HTTP
transport is a function from the resolved URL to either a response or a
raised transport exception.
-/

namespace NMDownloader

/-- Python exception classes that the embedded code can raise.
`assertionError` is a failed `assert` statement; `jsonDecodeError` is
raised by `Response.json()` on an undecodable body; `keyError` by a dict
lookup with a missing key; `typeError` by indexing a non-dict with a
string key; `valueError` is raised explicitly by
`get_mod_name_from_url`; `attributeError` by calling a method on `None`;
`uncaughtTransport` stands for a transport exception whose class is not
in a `try` block's catch list and therefore escapes. -/
inductive PyErr where
  | assertionError
  | jsonDecodeError
  | keyError
  | typeError
  | valueError
  | attributeError
  | uncaughtTransport
deriving DecidableEq, Repr

/-- A dynamically typed Python value, as far as the embedded code needs:
`none` is Python `None`; other runtime types (int, etc.) are collapsed
into `int` since the code only ever distinguishes `str` from non-`str`. -/
inductive PyVal where
  | str (s : String)
  | int (n : Int)
  | none
deriving DecidableEq, Repr

/-- `True` exactly when the value is a Python `str`
(`isinstance(v, str)`). -/
def PyVal.isStr : PyVal → Bool
  | .str _ => true
  | _ => false

/-- A decoded JSON value (`response.json()` result), as far as the
embedded code needs: numbers, strings and objects.  An object is a
field list spelled out as `objCons key value rest`, ending in `objNil`
(a flattened association list, which keeps equality derivable). -/
inductive JsonVal where
  | num (n : Int)
  | str (s : String)
  | objNil
  | objCons (key : String) (val : JsonVal) (rest : JsonVal)
deriving DecidableEq, Repr

/-- `True` exactly when the decoded value is a JSON object (a Python
dict after decoding). -/
def JsonVal.isObj : JsonVal → Bool
  | .objNil => true
  | .objCons _ _ _ => true
  | _ => false

/-- `decoded[key]`-style lookup in a JSON object: first binding wins,
as in decoded Python dicts; `none` on a missing key or a non-object. -/
def lookupField : JsonVal → String → Option JsonVal
  | .objCons k v rest, key => if k = key then some v else lookupField rest key
  | _, _ => Option.none

/-! ## `src/utils/authorization.py` — class `Authenticator` -/

/-- Embedding of `Authenticator`: the single field `_api_key`.
The constructor `__init__(self, key=None)` stores any value unchecked. -/
structure Authenticator where
  api_key : PyVal
deriving DecidableEq, Repr

/-- `Authenticator(key)` — the constructor stores `key` with no
validation (default `None`). -/
def Authenticator.init (key : PyVal := PyVal.none) : Authenticator :=
  ⟨key⟩

/-- The `api_key` property setter:
`assert isinstance(key, str)` then `self._api_key = key`. -/
def Authenticator.apiKeySet (a : Authenticator) (key : PyVal) :
    Except PyErr Authenticator :=
  match key with
  | .str s => .ok ⟨PyVal.str s⟩
  | _ => .error .assertionError

/-- The `api_key` property getter: returns the stored `_api_key`. -/
def Authenticator.apiKeyGet (a : Authenticator) : PyVal :=
  a.api_key

/-- A file system: maps a path to `some content` when
`os.path.isfile(path)` holds, `none` otherwise. -/
def FileSystem : Type := String → Option String

/-- `Authenticator.from_file(file_name)`:
`assert os.path.isfile(file_name)`, then read the file's full text and
return `cls(key)`. -/
def Authenticator.from_file (fs : FileSystem) (file_name : String) :
    Except PyErr Authenticator :=
  match fs file_name with
  | Option.none => .error .assertionError
  | some content => .ok ⟨PyVal.str content⟩

/-- The invariant claimed by the spec for a credential: the stored key is
either absent or non-empty text. -/
def keyInvariant (a : Authenticator) : Prop :=
  a.api_key = PyVal.none ∨ ∃ s, a.api_key = PyVal.str s ∧ s ≠ ""

instance (a : Authenticator) : Decidable (keyInvariant a) := by
  unfold keyInvariant
  cases h : a.api_key with
  | str s => exact decidable_of_iff (s ≠ "") (by simp [h])
  | int n => exact decidable_of_iff False (by simp [h])
  | none => exact decidable_of_iff True (by simp [h])

/-! ## `src/utils/nexus_queries.py` — class `NexusQuery` -/

/-- A header dictionary: an association list of header name to value. -/
abbrev Headers := List (String × String)

/-- `key in headers.keys()`. -/
def hasHeader (h : Headers) (key : String) : Bool :=
  h.any (fun p => p.1 == key)

/-- An HTTP response as the embedded code observes it: the status code
(`Option`, because a fresh `requests.Response()` has none) and the result
of `.json()` (`none` when decoding raises `JSONDecodeError`). -/
structure Response where
  status_code : Option Nat
  jsonBody : Option JsonVal
deriving DecidableEq, Repr

/-- `requests.Response()` — the empty placeholder object the `except`
branches construct and return: no status code, an undecodable body. -/
def emptyResponse : Response :=
  ⟨Option.none, Option.none⟩

/-- The transport exception classes named in `NexusQuery.query`'s catch
list, plus `other` for any exception class the transport might raise that
the catch list does not cover. -/
inductive TransportExc where
  | connectionError
  | timeout
  | tooManyRedirects
  | httpError
  | urlRequired
  | other
deriving DecidableEq, Repr

/-- The HTTP transport environment: the outcome (response, or raised
exception) of the single request `query` issues, as a function of the
resolved URL.  Params and headers are fixed across one batch, so a
URL-indexed environment suffices for every claim. -/
abbrev Transport := String → Except TransportExc Response

/-- Embedding of class `NexusQuery`: the constructor's `url` and
`headers` fields.  `query_type` (`requests.get`/`requests.post`) is
subsumed by the `Transport` environment and `params` is forwarded
untouched to the transport, so neither field affects any claim. -/
structure NexusQuery where
  url : Option String
  headers : Option Headers

/-- The fixed `_base_url` field. -/
def base_url : String := "https://api.nexusmods.com/v1/"

/-- URL resolution in `NexusQuery.query` (`if url is None: url = self.url
else: url = self._base_url + url`): a `url` argument that is passed is
always prefixed with `_base_url`; only when the argument is `None` is the
stored `self.url` used as-is. -/
def resolveUrl (selfUrl : Option String) (urlArg : Option String) :
    Option String :=
  match urlArg with
  | Option.none => selfUrl
  | some u => some (base_url ++ u)

/-- Embedding of `NexusQuery.query(self, url, params, headers)`.  The
second component of the result records whether a network call was
performed.  Argument defaulting (`if headers is None: headers =
self.headers`) precedes the two header asserts; the transport is invoked
only after both asserts pass.  A `None` resolved URL makes `requests`
raise `MissingSchema` while preparing the request — an exception class
outside the catch list, so it escapes without network traffic.  The five
caught exception classes all return `requests.Response()`; any other
transport exception escapes. -/
def NexusQuery.query (self : NexusQuery) (env : Transport)
    (urlArg : Option String) (headersArg : Option Headers) :
    Except PyErr Response × Bool :=
  let headers? := match headersArg with
    | Option.none => self.headers
    | some h => some h
  let url? := resolveUrl self.url urlArg
  match headers? with
  | Option.none => (.error .attributeError, false)
  | some headers =>
      if hasHeader headers "apikey" = false then
        (.error .assertionError, false)
      else if hasHeader headers "accept" = false then
        (.error .assertionError, false)
      else
        match url? with
        | Option.none => (.error .uncaughtTransport, false)
        | some u =>
            match env u with
            | .ok r => (.ok r, true)
            | .error TransportExc.other => (.error .uncaughtTransport, true)
            | .error _ => (.ok emptyResponse, true)

/-- Modelled from the spec §3: the kinds of the spec's
`NetworkError` variant.  Stated only to compare the spec's outcome type
with the code's actual return value. -/
inductive NetworkErrKind where
  | ConnectFailed
  | TimedOut
  | TooManyRedirects
  | MissingUrl
deriving DecidableEq, Repr

/-- Modelled from the spec §3: `QueryOutcome` — the tagged variant the
spec assigns to `query`'s result.  Stated only to compare with the code's
return value; the code itself never constructs such a value. -/
inductive QueryOutcome where
  | Success (statusCode : Nat) (body : Option JsonVal)
  | HttpError (statusCode : Nat)
  | NetworkError (kind : NetworkErrKind)
deriving DecidableEq, Repr

/-! ## `src/utils/mod_download.py` -/

/-- Python `url.split("/")` on the character list of a URL: splits at
every slash, keeping empty parts; always returns at least one part. -/
def splitOnSlash (cs : List Char) : List (List Char) :=
  cs.foldr
    (fun ch r =>
      match r with
      | [] => [[ch]]
      | g :: gs => if ch = '/' then [] :: g :: gs else (ch :: g) :: gs)
    [[]]

/-- `url.split(sep="/")[-1]` — the last part of the split URL. -/
def lastSegment (url : String) : List Char :=
  (splitOnSlash url.data).getLastD []

/-- The Python regex match `re.match(regex, last_part)` for the pattern
`^.+(?=\?)`: `.` matches any character except a newline and `+` is
greedy with backtracking, so the match, when one exists, is the longest
prefix of length `i ≥ 1` that contains no newline and is immediately
followed by a literal question mark.  Returns that `i`, or `none` when
no prefix qualifies. -/
def regexMatchIdx (cs : List Char) : Option Nat :=
  ((List.range cs.length).filter
      (fun i => decide (1 ≤ i) && (cs.get? i == some '?') &&
        (cs.take i).all (fun c => c != Char.ofNat 10))).getLast?

/-- The positions at which the regex `^.+(?=\?)` could stop on `cs`:
`i` qualifies when the prefix of length `i` is non-empty and
newline-free and the next character is a literal question mark.  The
greedy `.+` with backtracking matches exactly when some position
qualifies, and then stops at the largest qualifying position. -/
def regexQualifies (cs : List Char) (i : Nat) : Prop :=
  1 ≤ i ∧ cs.get? i = some '?' ∧ ∀ c ∈ cs.take i, c ≠ Char.ofNat 10

/-- Embedding of `get_mod_name_from_url(url)`: split the url on `/`,
take the last part and match `^.+(?=\?)` against it; on a match return
the matched prefix as the file name, otherwise raise `ValueError`. -/
def get_mod_name_from_url (url : String) : Except PyErr String :=
  match regexMatchIdx (lastSegment url) with
  | some i => .ok (String.mk ((lastSegment url).take i))
  | Option.none => .error .valueError

/-- The file-name resolution performed by `download_with_progress_bar`:
`get_mod_name_from_url(url)` inside a `try`, with the `except ValueError`
fallback that uses the entire URL string as the file name (only
logged, never surfaced). -/
def resolveFileName (url : String) : String :=
  match get_mod_name_from_url url with
  | .ok n => n
  | .error _ => url

/-- A chunk of the streamed response body: a list of byte values. -/
abbrev Chunk := List Nat

/-- The download loop's file writes: starting from the empty file opened
in `"wb"` mode, `output_file.write(data)` appends each chunk in receipt
order. -/
def writtenFile (chunks : List Chunk) : Chunk :=
  chunks.foldl (fun acc c => acc ++ c) []

/-- The progress events produced by wrapping the chunk iterator in
`tqdm.tqdm(...)`: the bar advances by one *iteration* per chunk — the
byte size of a chunk is never passed to it — so the cumulative figure
displayed after each chunk is the number of chunks so far.  Returns the
list of cumulative counter values, one per chunk. -/
def tqdmEvents (chunks : List Chunk) : List Nat :=
  (chunks.foldl (fun st _ => (st.1 + 1, st.2 ++ [st.1 + 1]))
    ((0 : Nat), ([] : List Nat))).2

/-- Embedding of `download_with_progress_bar(url, write_folder)`, with
the response's chunk stream (`response.iter_content(...)`) passed
explicitly: resolves the file name (full-URL fallback included), opens
`write_folder + file_name` and writes each chunk in order under a tqdm
bar.  Returns the destination path, the final file content and the tqdm
progress events.  (`os.makedirs` is directory I/O with no bearing on any
claim.) -/
def download_with_progress_bar (url write_folder : String)
    (chunks : List Chunk) : String × Chunk × List Nat :=
  (write_folder ++ resolveFileName url, writtenFile chunks, tqdmEvents chunks)

/-- Embedding of class `FileDownloader`: the constructor fields `url`
(default `None`) and `write_folder` (default `"mod_downloads/"`). -/
structure FileDownloader where
  url : Option String
  write_folder : String

/-- `FileDownloader(url, write_folder)` with the constructor defaults. -/
def FileDownloader.init (url : Option String := Option.none)
    (write_folder : String := "mod_downloads/") : FileDownloader :=
  ⟨url, write_folder⟩

/-- Embedding of `FileDownloader.download(self, url=None,
write_folder="mod_downloads/")`.  `urlArg`/`writeFolderArg` are `none`
when the caller omits the argument, in which case the *parameter
defaults* apply: the `url` parameter defaults to `None` and is then
replaced by `self.url` (`if url is None: url = self.url`), while
`write_folder` defaults to the literal `"mod_downloads/"` and
`self.write_folder` is never consulted.  A `None` effective url fails
the `isinstance(url, str)` assert. -/
def FileDownloader.download (self : FileDownloader)
    (urlArg : Option String) (writeFolderArg : Option String)
    (chunks : List Chunk) : Except PyErr (String × Chunk × List Nat) :=
  let write_folder := writeFolderArg.getD "mod_downloads/"
  match (match urlArg with | some u => some u | Option.none => self.url) with
  | Option.none => .error .assertionError
  | some url => .ok (download_with_progress_bar url write_folder chunks)

/-! ## `src/utils/nexus_queries.py` — `ModFileQuery.generate_mod_info`,
and `src/utils/nexus_interface.py` — `NexusInterface.import_mod_info` -/

/-- The per-mod metadata endpoint path built by `generate_mod_info`:
`"games/{game_domain}/mods/{mod_id}.json"`. -/
def modInfoUrl (game_domain : String) (mod_id : Int) : String :=
  "games/" ++ game_domain ++ "/mods/" ++ toString mod_id ++ ".json"

/-- Embedding of `ModFileQuery.generate_mod_info(self, mod_id,
game_domain, params, headers)`: for each id in the list, build the
metadata path, dispatch it through `NexusQuery.query` (passing the path
as the `url` argument, so the base URL is prefixed) and collect the
responses in order.  An exception raised inside the loop (an uncaught
transport exception, or the header asserts) aborts and propagates; the
loop's mutation of `self.url` is never read back, since every `query`
call passes the url explicitly, and the `isinstance(response,
requests.Response)` assert always passes. -/
def generate_mod_info (env : Transport) (headers : Headers)
    (game_domain : String) : List Int → Except PyErr (List Response)
  | [] => .ok []
  | id :: rest =>
      match (NexusQuery.query ⟨Option.none, some headers⟩ env
          (some (modInfoUrl game_domain id)) (some headers)).1 with
      | .error e => .error e
      | .ok r =>
          match generate_mod_info env headers game_domain rest with
          | .error e => .error e
          | .ok rs => .ok (r :: rs)

/-- A Python dict with decoded-JSON keys, as an insertion-ordered
association list. -/
abbrev JsonDict := List (JsonVal × JsonVal)

/-- Python dict assignment `d[k] = v`: overwrite in place when the key
exists, append otherwise. -/
def dictUpsert (d : JsonDict) (k v : JsonVal) : JsonDict :=
  match d with
  | [] => [(k, v)]
  | (k0, v0) :: rest =>
      if k0 = k then (k0, v) :: rest else (k0, v0) :: dictUpsert rest k v

/-- One iteration of `import_mod_info`'s aggregation loop on a response:
`decoded = response.json()` (raises `JSONDecodeError` on an undecodable
body) followed by `decoded["mod_id"]` (raises `TypeError` on a non-dict,
`KeyError` on a missing key); yields the dict key — the mod id *embedded
in the response body* — together with the decoded body. -/
def modEntry (r : Response) : Except PyErr (JsonVal × JsonVal) :=
  match r.jsonBody with
  | Option.none => .error .jsonDecodeError
  | some decoded =>
      if decoded.isObj then
        match lookupField decoded "mod_id" with
        | some v => .ok (v, decoded)
        | Option.none => .error .keyError
      else .error .typeError

/-- The full body of one iteration of `import_mod_info`'s aggregation
loop: `modEntry`'s decode-and-index followed by the dict assignment
`mod_info_dict[decoded["mod_id"]] = decoded`. -/
def aggregateStep (dict : JsonDict) (r : Response) :
    Except PyErr JsonDict :=
  match modEntry r with
  | .error e => .error e
  | .ok kv => .ok (dictUpsert dict kv.1 kv.2)

/-- Embedding of `NexusInterface.import_mod_info(self, importer,
game_domain)` with `importer.mod_list` passed as `mod_id` and the
authenticator's key as `api_key`: build the headers, download one
response per id via `generate_mod_info`, then run the aggregation loop
over the responses.  Any exception in either loop aborts the whole call.
(The final dump to `profile/mod_infos.json` is file I/O with no bearing
on any claim.) -/
def import_mod_info (env : Transport) (api_key : String)
    (game_domain : String) (mod_id : List Int) : Except PyErr JsonDict :=
  let headers : Headers :=
    [("apikey", api_key), ("accept", "application/json")]
  match generate_mod_info env headers game_domain mod_id with
  | .error e => .error e
  | .ok responses => responses.foldlM aggregateStep ([] : JsonDict)

/-- The effective response `generate_mod_info` collects for one id when
the headers are valid and the transport exception (if any) is caught:
the transport's response, or the empty placeholder `requests.Response()`
after a caught exception. -/
def respOf (env : Transport) (game_domain : String) (mod_id : Int) :
    Response :=
  match env (base_url ++ modInfoUrl game_domain mod_id) with
  | .ok r => r
  | .error _ => emptyResponse

/-- The transport used for C1's concrete scenario: the metadata query
for id 1 succeeds with a decodable body whose embedded `mod_id` is 1;
the query for id 2 yields an HTTP 404 whose decoded body has no
`mod_id` field; anything else raises a connection error. -/
def envC1 : Transport := fun u =>
  if u = base_url ++ modInfoUrl "skyrim" 1 then
    .ok ⟨some 200,
      some (JsonVal.objCons "mod_id" (JsonVal.num 1)
        (JsonVal.objCons "name" (JsonVal.str "A") JsonVal.objNil))⟩
  else if u = base_url ++ modInfoUrl "skyrim" 2 then
    .ok ⟨some 404,
      some (JsonVal.objCons "code" (JsonVal.num 404) JsonVal.objNil)⟩
  else .error .connectionError

/-! ## Helper lemmas -/

theorem query_valid (env : Transport) (selfUrl : Option String)
    (selfHeaders : Option Headers) (h : Headers) (u : String)
    (hk : hasHeader h "apikey" = true) (ha : hasHeader h "accept" = true) :
    (NexusQuery.query ⟨selfUrl, selfHeaders⟩ env (some u) (some h)).1 =
      match env (base_url ++ u) with
      | .ok r => .ok r
      | .error TransportExc.other => .error .uncaughtTransport
      | .error _ => .ok emptyResponse := by
  unfold NexusQuery.query resolveUrl
  simp only [hk, ha]
  cases henv : env (base_url ++ u) with
  | ok r => simp [henv]
  | error e => cases e <;> simp [henv]

theorem generate_mod_info_ok (env : Transport) (headers : Headers)
    (dom : String) (hk : hasHeader headers "apikey" = true)
    (ha : hasHeader headers "accept" = true) :
    ∀ (ids : List Int) (rs : List Response),
      generate_mod_info env headers dom ids = .ok rs →
      rs = ids.map (respOf env dom) := by
  intro ids
  induction ids with
  | nil =>
      intro rs h
      unfold generate_mod_info at h
      cases h
      rfl
  | cons id rest ih =>
      intro rs h
      unfold generate_mod_info at h
      rw [query_valid env Option.none (some headers) headers
        (modInfoUrl dom id) hk ha] at h
      cases henv : env (base_url ++ modInfoUrl dom id) with
      | ok r =>
          rw [henv] at h
          cases hrest : generate_mod_info env headers dom rest with
          | error e => rw [hrest] at h; cases h
          | ok rs0 =>
              rw [hrest] at h
              cases h
              simp [List.map_cons, respOf, henv, ih rs0 hrest]
      | error e =>
          rw [henv] at h
          cases e <;> simp only at h
          case other => cases h
          all_goals
            cases hrest : generate_mod_info env headers dom rest with
            | error e0 => rw [hrest] at h; cases h
            | ok rs0 =>
                rw [hrest] at h
                cases h
                simp [List.map_cons, respOf, henv, ih rs0 hrest]

theorem mem_dictUpsert (k v : JsonVal) :
    ∀ (d : JsonDict), ∀ p ∈ dictUpsert d k v, p ∈ d ∨ p = (k, v) := by
  intro d
  induction d with
  | nil => intro p hp; simp [dictUpsert] at hp; exact Or.inr hp
  | cons kv0 rest ih =>
      intro p hp
      unfold dictUpsert at hp
      by_cases hk0 : kv0.1 = k
      · simp only [hk0, if_pos rfl] at hp
        rcases List.mem_cons.mp hp with h1 | h2
        · subst h1
          by_cases hv : kv0.2 = v
          · exact Or.inr (by rw [← hk0, ← hv])
          · exact Or.inr (by rw [← hk0])
        · exact Or.inl (List.mem_cons_of_mem _ h2)
      · simp only [if_neg hk0] at hp
        rcases List.mem_cons.mp hp with h1 | h2
        · exact Or.inl (h1 ▸ List.mem_cons_self _ _)
        · rcases ih p h2 with h3 | h3
          · exact Or.inl (List.mem_cons_of_mem _ h3)
          · exact Or.inr h3

theorem aggregate_mem (rs : List Response) :
    ∀ (acc D : JsonDict),
      rs.foldlM aggregateStep acc = .ok D →
      ∀ p ∈ D, p ∈ acc ∨ ∃ r ∈ rs, modEntry r = .ok p := by
  induction rs with
  | nil =>
      intro acc D h p hp
      simp only [List.foldlM_nil, pure, Except.pure, Except.ok.injEq] at h
      subst h
      exact Or.inl hp
  | cons r rest ih =>
      intro acc D h p hp
      simp only [List.foldlM_cons] at h
      cases hr : modEntry r with
      | error e =>
          simp only [bind, Except.bind, aggregateStep, hr] at h
          cases h
      | ok kv =>
          simp only [bind, Except.bind, aggregateStep, hr] at h
          rcases ih (dictUpsert acc kv.1 kv.2) D h p hp with hmem | ⟨r0, hr0, he0⟩
          · rcases mem_dictUpsert kv.1 kv.2 acc p hmem with h1 | h1
            · exact Or.inl h1
            · refine Or.inr ⟨r, List.mem_cons_self _ _, ?_⟩
              rw [hr, h1]
          · exact Or.inr ⟨r0, List.mem_cons_of_mem _ hr0, he0⟩

theorem aggregate_fail (rs : List Response) (r0 : Response)
    (hf : (modEntry r0).isOk = false) :
    ∀ acc, r0 ∈ rs →
      (rs.foldlM aggregateStep acc).isOk = false := by
  induction rs with
  | nil => intro acc h0; cases h0
  | cons r rest ih =>
      intro acc h0
      simp only [List.foldlM_cons]
      cases hr : modEntry r with
      | error e =>
          simp [bind, Except.bind, aggregateStep, hr, Except.isOk,
            Except.toBool]
      | ok kv =>
          simp only [bind, Except.bind, aggregateStep, hr]
          rcases List.mem_cons.mp h0 with h1 | h1
          · subst h1
            rw [hr] at hf
            simp [Except.isOk, Except.toBool] at hf
          · exact ih (dictUpsert acc kv.1 kv.2) h1

/-! ## Claims C5, C6, C7 -/

/-- C5 counterexample: setting the empty string as the key succeeds
(the setter only checks `isinstance(key, str)`), producing a reachable
credential whose key is present but empty — the non-empty invariant is
not preserved. -/
theorem C5_counterexample :
    (Authenticator.init PyVal.none).apiKeySet (PyVal.str "") =
      .ok ⟨PyVal.str ""⟩ ∧
    ¬ keyInvariant ⟨PyVal.str ""⟩ := by
  refine ⟨rfl, ?_⟩
  decide

/-- C5 amended: the only validation any credential operation performs is
the setter's text check — a value is accepted by `apiKeySet` exactly when
it is a `str`, empty or not, and is stored verbatim; the constructor and
`from_file` store their input with no check at all, so the stored key may
be empty (or, via the constructor, not text at all). -/
theorem C5_amended (a : Authenticator) (v : PyVal) (s content : String)
    (fs : FileSystem) (path : String) (hfs : fs path = some content) :
    ((a.apiKeySet v).isOk = true ↔ ∃ t, v = PyVal.str t) ∧
    a.apiKeySet (PyVal.str s) = .ok ⟨PyVal.str s⟩ ∧
    Authenticator.init v = ⟨v⟩ ∧
    Authenticator.from_file fs path = .ok ⟨PyVal.str content⟩ := by
  refine ⟨?_, rfl, rfl, ?_⟩
  · cases v <;> simp [Authenticator.apiKeySet, Except.isOk, Except.toBool]
  · simp [Authenticator.from_file, hfs]

/-- C5 amended, witness: instantiated at the empty-string key and a
one-file file system. -/
theorem C5_amended_witness :
    ((Authenticator.init PyVal.none).apiKeySet (PyVal.str "")).isOk =
      true :=
  ((C5_amended (Authenticator.init PyVal.none) (PyVal.str "") "" "K"
      (fun p => if p = "k.txt" then some "K" else Option.none) "k.txt"
      (by simp)).1).mpr ⟨"", rfl⟩

/-- C6: `api_key = value` fails with the wrong-type error (the failed
`isinstance(key, str)` assertion — the spec's `TypeError` kind) whenever
`value` is not text, and setting a text value stores it so that the
getter returns exactly that value. -/
theorem C6_setKey (a b : Authenticator) (v : PyVal)
    (hv : v.isStr = false) (s : String) :
    a.apiKeySet v = .error .assertionError ∧
    b.apiKeySet (PyVal.str s) = .ok ⟨PyVal.str s⟩ ∧
    Authenticator.apiKeyGet ⟨PyVal.str s⟩ = PyVal.str s := by
  refine ⟨?_, rfl, rfl⟩
  cases v with
  | str t => simp [PyVal.isStr] at hv
  | int n => rfl
  | none => rfl

/-- C6 witness: `setKey(123)` fails, `setKey("abc")` then `getKey()`
returns `"abc"`. -/
theorem C6_setKey_witness :
    (Authenticator.init PyVal.none).apiKeySet (PyVal.int 123) =
        .error .assertionError ∧
      (Authenticator.init PyVal.none).apiKeySet (PyVal.str "abc") =
        .ok ⟨PyVal.str "abc"⟩ ∧
      Authenticator.apiKeyGet ⟨PyVal.str "abc"⟩ = PyVal.str "abc" :=
  C6_setKey (Authenticator.init PyVal.none) (Authenticator.init PyVal.none)
    (PyVal.int 123) (by decide) "abc"

/-- C7: `from_file(path)` fails with the missing-file error (the failed
`os.path.isfile` assertion — the spec's `NotFoundError` kind) when the
path does not reference an existing file, and on an existing file
returns a fresh `Authenticator` whose key is the file's full text
content, untrimmed. -/
theorem C7_from_file (fs : FileSystem) (missing existing content : String)
    (hm : fs missing = Option.none) (he : fs existing = some content) :
    Authenticator.from_file fs missing = .error .assertionError ∧
    Authenticator.from_file fs existing = .ok ⟨PyVal.str content⟩ := by
  constructor
  · simp [Authenticator.from_file, hm]
  · simp [Authenticator.from_file, he]

/-- C7 witness: a file system with the single file `"k.txt"` holding
`"KEY123"`. -/
theorem C7_from_file_witness :
    Authenticator.from_file
        (fun p => if p = "k.txt" then some "KEY123" else Option.none)
        "nope.txt" = .error .assertionError ∧
      Authenticator.from_file
        (fun p => if p = "k.txt" then some "KEY123" else Option.none)
        "k.txt" = .ok ⟨PyVal.str "KEY123"⟩ :=
  C7_from_file (fun p => if p = "k.txt" then some "KEY123" else Option.none)
    "nope.txt" "k.txt" "KEY123" (by simp) (by simp)

/-! ## Claims C2, C3, C4 -/

/-- C2 counterexample: with valid headers, a simulated connection failure
and a simulated timeout produce the *same* return value — the empty
placeholder `requests.Response()` — so `query`'s result is not a tagged
outcome identifying the failure as `NetworkError{ConnectFailed}`: the
spec's outcome type keeps `ConnectFailed` and `TimedOut` distinct, but
the code's return value cannot tell them apart. -/
theorem C2_counterexample :
    NexusQuery.query ⟨Option.none, Option.none⟩
        (fun _ => .error .connectionError) (some "users/validate.json")
        (some [("apikey", "k"), ("accept", "application/json")]) =
      (.ok emptyResponse, true) ∧
    NexusQuery.query ⟨Option.none, Option.none⟩
        (fun _ => .error .timeout) (some "users/validate.json")
        (some [("apikey", "k"), ("accept", "application/json")]) =
      (.ok emptyResponse, true) ∧
    QueryOutcome.NetworkError NetworkErrKind.ConnectFailed ≠
      QueryOutcome.NetworkError NetworkErrKind.TimedOut :=
  ⟨rfl, rfl, by decide⟩

/-- C2 amended: for every transport failure whose exception class is in
the catch list (connection failure, timeout, redirect limit, HTTP error,
missing URL), `query` with valid headers returns the empty placeholder
`requests.Response()` instead of letting the exception escape — but the
failure kind is not recorded in the returned value, which is the same for
all caught kinds. -/
theorem C2_amended (self : NexusQuery) (env : Transport) (u : String)
    (h : Headers) (e : TransportExc)
    (hk : hasHeader h "apikey" = true) (ha : hasHeader h "accept" = true)
    (he : e ≠ TransportExc.other)
    (henv : env (base_url ++ u) = .error e) :
    self.query env (some u) (some h) = (.ok emptyResponse, true) := by
  unfold NexusQuery.query resolveUrl
  cases e <;> simp_all

/-- C2 amended, witness: a transport that raises a connection error. -/
theorem C2_amended_witness :
    NexusQuery.query ⟨Option.none, Option.none⟩
        (fun _ => .error .connectionError) (some "users/validate.json")
        (some [("apikey", "k"), ("accept", "application/json")]) =
      (.ok emptyResponse, true) :=
  C2_amended ⟨Option.none, Option.none⟩ (fun _ => .error .connectionError)
    "users/validate.json" [("apikey", "k"), ("accept", "application/json")]
    TransportExc.connectionError (by decide) (by decide) (by decide) rfl

/-- C3 counterexample: a path that is already a fully-qualified URL is
*not* used as-is — a passed `url` argument is unconditionally prefixed
with `_base_url`, so `"https://cdn/x"` resolves to
`"https://api.nexusmods.com/v1/https://cdn/x"`. -/
theorem C3_counterexample :
    ("https://".data.isPrefixOf "https://cdn/x".data) = true ∧
    resolveUrl Option.none (some "https://cdn/x") =
      some "https://api.nexusmods.com/v1/https://cdn/x" ∧
    resolveUrl Option.none (some "https://cdn/x") ≠ some "https://cdn/x" :=
  ⟨by decide, rfl, by decide⟩

/-- C3 amended: a `url` argument passed to the call is always prefixed
with the fixed base URL, fully qualified or not, and the dispatched
request targets exactly that concatenation (the outcome depends on the
transport only at `base_url ++ u`); the stored default `self.url` — used
only when the call passes no url — is used as-is, unprefixed. -/
theorem C3_amended (selfUrl : Option String) (hdrs headersArg : Option Headers)
    (u : String) (env1 env2 : Transport)
    (hagree : env1 (base_url ++ u) = env2 (base_url ++ u)) :
    resolveUrl selfUrl (some u) = some (base_url ++ u) ∧
    resolveUrl selfUrl Option.none = selfUrl ∧
    NexusQuery.query ⟨selfUrl, hdrs⟩ env1 (some u) headersArg =
      NexusQuery.query ⟨selfUrl, hdrs⟩ env2 (some u) headersArg := by
  refine ⟨rfl, rfl, ?_⟩
  unfold NexusQuery.query resolveUrl
  simp only [hagree]

/-- C3 amended, witness: two transports agreeing at the resolved URL. -/
theorem C3_amended_witness :
    resolveUrl Option.none (some "users/validate.json") =
      some "https://api.nexusmods.com/v1/users/validate.json" :=
  (C3_amended Option.none Option.none Option.none "users/validate.json"
    (fun _ => .ok emptyResponse) (fun _ => .ok emptyResponse) rfl).1

/-- C4: when the headers lack `apikey` or lack `accept`, `query` fails
with the failed-assert error (the spec's `ConfigurationError`) and the
second component is `false`: no network call is performed. -/
theorem C4_missing_header (self : NexusQuery) (env : Transport)
    (urlArg : Option String) (h : Headers)
    (hmiss : hasHeader h "apikey" = false ∨ hasHeader h "accept" = false) :
    self.query env urlArg (some h) = (.error .assertionError, false) := by
  unfold NexusQuery.query
  rcases hmiss with hm | hm
  · simp [hm]
  · cases hk : hasHeader h "apikey" <;> simp [hm, hk]

/-- C4 witness: headers with `accept` but no `apikey`. -/
theorem C4_missing_header_witness :
    NexusQuery.query ⟨Option.none, Option.none⟩ (fun _ => .ok emptyResponse)
        (some "users/validate.json")
        (some [("accept", "application/json")]) =
      (.error .assertionError, false) :=
  C4_missing_header ⟨Option.none, Option.none⟩ (fun _ => .ok emptyResponse)
    (some "users/validate.json") [("accept", "application/json")]
    (Or.inl (by decide))

/-! ## Claims C8, C9, C10 -/

/-- C8 counterexample: for `"https://cdn/x/?m"` the final path segment is
`"?m"`, which does contain the query-string delimiter, so the claim says
the file name is the substring preceding it (the empty string); but the
regex `^.+(?=\?)` needs a non-empty prefix before the `?`, so extraction
fails and the code uses the entire URL — which is not that substring. -/
theorem C8_counterexample :
    lastSegment "https://cdn/x/?m" = ['?', 'm'] ∧
    (lastSegment "https://cdn/x/?m").contains '?' = true ∧
    resolveFileName "https://cdn/x/?m" = "https://cdn/x/?m" ∧
    ("https://cdn/x/?m" : String) ≠ "" := by
  refine ⟨by decide, by decide, by decide, by decide⟩

theorem getLast?_filter_range_ge (p : Nat → Bool) :
    ∀ (n j : Nat), ((List.range n).filter p).getLast? = some j →
      ∀ k, k < n → p k = true → k ≤ j := by
  intro n
  induction n with
  | zero => intro j h k hk hp; exact absurd hk (Nat.not_lt_zero k)
  | succ n ih =>
      intro j h k hk hp
      rw [List.range_succ, List.filter_append] at h
      cases hpn : p n with
      | true =>
          have hfil : List.filter p [n] = [n] := by simp [List.filter, hpn]
          rw [hfil, List.getLast?_concat] at h
          injection h with h
          omega
      | false =>
          have hfil : List.filter p [n] = [] := by simp [List.filter, hpn]
          rw [hfil, List.append_nil] at h
          rcases Nat.lt_succ_iff_lt_or_eq.mp hk with h1 | h1
          · exact ih j h k h1 hp
          · subst h1; rw [hp] at hpn; cases hpn

theorem mem_filter_of_regexQualifies (cs : List Char) (i : Nat)
    (h : regexQualifies cs i) :
    i ∈ (List.range cs.length).filter
      (fun j => decide (1 ≤ j) && (cs.get? j == some '?') &&
        (cs.take j).all (fun c => c != Char.ofNat 10)) := by
  obtain ⟨h1, h2, h3⟩ := h
  have hlt : i < cs.length := by
    by_contra hge
    rw [List.get?_eq_none.mpr (Nat.le_of_not_lt hge)] at h2
    cases h2
  refine List.mem_filter.mpr ⟨List.mem_range.mpr hlt, ?_⟩
  simp only [Bool.and_eq_true, decide_eq_true_eq, beq_iff_eq,
    List.all_eq_true, bne_iff_ne, ne_eq]
  exact ⟨⟨h1, h2⟩, fun c hc => h3 c hc⟩

theorem regexQualifies_of_mem_filter (cs : List Char) (i : Nat)
    (h : i ∈ (List.range cs.length).filter
      (fun j => decide (1 ≤ j) && (cs.get? j == some '?') &&
        (cs.take j).all (fun c => c != Char.ofNat 10))) :
    regexQualifies cs i := by
  have hpred := (List.mem_filter.mp h).2
  simp only [Bool.and_eq_true, decide_eq_true_eq, beq_iff_eq,
    List.all_eq_true, bne_iff_ne, ne_eq] at hpred
  exact ⟨hpred.1.1, hpred.1.2, fun c hc => hpred.2 c hc⟩

theorem regexMatchIdx_none (cs : List Char)
    (hm : regexMatchIdx cs = Option.none) :
    ∀ i, ¬ regexQualifies cs i := by
  intro i hi
  have hmem := mem_filter_of_regexQualifies cs i hi
  have hne := List.ne_nil_of_mem hmem
  unfold regexMatchIdx at hm
  rw [List.getLast?_eq_getLast_of_ne_nil hne] at hm
  cases hm

theorem regexMatchIdx_some (cs : List Char) (j : Nat)
    (hm : regexMatchIdx cs = some j) :
    regexQualifies cs j ∧ ∀ k, regexQualifies cs k → k ≤ j := by
  have hin : j ∈ ((List.range cs.length).filter
      (fun i => decide (1 ≤ i) && (cs.get? i == some '?') &&
        (cs.take i).all (fun c => c != Char.ofNat 10))).getLast? :=
    Option.mem_iff.mpr hm
  have hmem : j ∈ (List.range cs.length).filter
      (fun i => decide (1 ≤ i) && (cs.get? i == some '?') &&
        (cs.take i).all (fun c => c != Char.ofNat 10)) := by
    obtain ⟨hne, heq⟩ := List.mem_getLast?_eq_getLast hin
    rw [heq]; exact List.getLast_mem hne
  refine ⟨regexQualifies_of_mem_filter cs j hmem, ?_⟩
  intro k hk
  have hkmem := mem_filter_of_regexQualifies cs k hk
  have hklt := List.mem_range.mp (List.mem_filter.mp hkmem).1
  exact getLast?_filter_range_ge _ cs.length j hm k hklt
    (List.mem_filter.mp hkmem).2

/-- C8 amended: the name is the longest non-empty newline-free prefix
of the final path segment that is immediately followed by a `?` (so
with several `?` the name runs up to the last qualifying one); the
entire URL string is used as the on-disk file name — without surfacing
an error — exactly when no such non-empty prefix exists, in particular
when the segment has no `?` at all or its only `?` is the first
character. -/
theorem C8_amended (url : String) :
    resolveFileName "https://cdn/x/File_1.7z?md5=1" = "File_1.7z" ∧
    resolveFileName "https://cdn/x/plainfile" = "https://cdn/x/plainfile" ∧
    ((∀ i, ¬ regexQualifies (lastSegment url) i) →
      resolveFileName url = url) ∧
    (∀ i, regexQualifies (lastSegment url) i →
      ∃ j, regexQualifies (lastSegment url) j ∧
        (∀ k, regexQualifies (lastSegment url) k → k ≤ j) ∧
        resolveFileName url = String.mk ((lastSegment url).take j)) := by
  refine ⟨by decide, by decide, ?_, ?_⟩
  · intro hno
    unfold resolveFileName get_mod_name_from_url
    cases hm : regexMatchIdx (lastSegment url) with
    | none => rfl
    | some i =>
        exact absurd (regexMatchIdx_some (lastSegment url) i hm).1 (hno i)
  · intro i hi
    cases hm : regexMatchIdx (lastSegment url) with
    | none => exact absurd hi (regexMatchIdx_none (lastSegment url) hm i)
    | some j =>
        obtain ⟨hq, hmax⟩ := regexMatchIdx_some (lastSegment url) j hm
        refine ⟨j, hq, hmax, ?_⟩
        simp only [resolveFileName, get_mod_name_from_url, hm]

/-- C8 amended, witness: for `"https://cdn/x/a?b?c"` the segment
`"a?b?c"` has qualifying positions 1 and 3; the theorem applied at
position 1 yields the maximal one, and the extracted name runs up to
the *last* `?` (`"a?b"`). -/
theorem C8_amended_witness :
    ∃ j, regexQualifies (lastSegment "https://cdn/x/a?b?c") j ∧
      (∀ k, regexQualifies (lastSegment "https://cdn/x/a?b?c") k → k ≤ j) ∧
      resolveFileName "https://cdn/x/a?b?c" =
        String.mk ((lastSegment "https://cdn/x/a?b?c").take j) :=
  (C8_amended "https://cdn/x/a?b?c").2.2.2 1 ⟨by decide, by decide, by decide⟩

set_option maxRecDepth 20000 in
/-- C9 counterexample: for three received chunks of 100, 100 and 50
bytes the written file is indeed the 250-byte concatenation, but the
tqdm progress indicator advances one *iteration* per chunk: its
cumulative values are 1, 2, 3 — not the byte totals 100, 200, 250 the
claim states, and the chunk byte size is never passed to it. -/
theorem C9_counterexample :
    writtenFile
        [List.replicate 100 7, List.replicate 100 8, List.replicate 50 9] =
      List.replicate 100 7 ++ List.replicate 100 8 ++ List.replicate 50 9 ∧
    (writtenFile
        [List.replicate 100 7, List.replicate 100 8,
          List.replicate 50 9]).length = 250 ∧
    tqdmEvents
        [List.replicate 100 7, List.replicate 100 8, List.replicate 50 9] =
      [1, 2, 3] ∧
    ([1, 2, 3] : List Nat) ≠ [100, 200, 250] := by
  refine ⟨by simp [writtenFile], by simp [writtenFile], by decide, by decide⟩

theorem writtenFile_loop (l : List Chunk) (acc : Chunk) :
    l.foldl (fun a c => a ++ c) acc = acc ++ l.flatten := by
  induction l generalizing acc with
  | nil => simp
  | cons c cs ih => simp [ih, List.append_assoc]

theorem tqdmEvents_loop (l : List Chunk) (n : Nat) (acc : List Nat) :
    (l.foldl (fun st (_ : Chunk) => (st.1 + 1, st.2 ++ [st.1 + 1]))
        (n, acc)).2 =
      acc ++ (List.range l.length).map (fun k => n + k + 1) := by
  induction l generalizing n acc with
  | nil => simp
  | cons c cs ih =>
      simp only [List.foldl_cons, ih, List.length_cons, List.range_succ_eq_map,
        List.map_cons, List.map_map]
      simp [Function.comp, List.append_assoc, Nat.add_comm, Nat.add_assoc,
        Nat.add_left_comm]

/-- C9 amended: the destination file is exactly the concatenation of the
received chunks in order (so its length is the sum of the chunk sizes),
and the progress indicator ticks exactly once per chunk — but each tick
advances an iteration counter by one, so the cumulative progress values
are 1, 2, …, number-of-chunks, not byte totals. -/
theorem C9_amended (chunks : List Chunk) :
    writtenFile chunks = chunks.flatten ∧
    (writtenFile chunks).length = (chunks.map List.length).sum ∧
    (tqdmEvents chunks).length = chunks.length ∧
    tqdmEvents chunks = (List.range chunks.length).map (fun k => k + 1) := by
  have hw : writtenFile chunks = chunks.flatten := by
    simpa using writtenFile_loop chunks []
  have ht : tqdmEvents chunks =
      (List.range chunks.length).map (fun k => k + 1) := by
    simpa using tqdmEvents_loop chunks 0 []
  refine ⟨hw, ?_, ?_, ht⟩
  · rw [hw]; exact List.length_flatten chunks
  · rw [ht]; simp

/-- C10: the `write_folder` supplied to the `FileDownloader` constructor
never influences `download` — for every argument list, a downloader
constructed with a non-default folder behaves identically to one
constructed with any other folder — and a call that omits the
`write_folder` argument writes under the parameter default
`"mod_downloads/"`. -/
theorem C10_write_folder (u : Option String) (wf wf2 : String)
    (hwf : wf ≠ "mod_downloads/") (urlArg wfArg : Option String)
    (chunks : List Chunk) (url : String) :
    FileDownloader.download ⟨u, wf⟩ urlArg wfArg chunks =
      FileDownloader.download ⟨u, wf2⟩ urlArg wfArg chunks ∧
    FileDownloader.download ⟨u, wf⟩ (some url) Option.none chunks =
      .ok ("mod_downloads/" ++ resolveFileName url, writtenFile chunks,
        tqdmEvents chunks) :=
  ⟨rfl, rfl⟩

/-- C10 witness: a downloader constructed with folder `"elsewhere/"`
still writes under `"mod_downloads/"` when the call omits the folder. -/
theorem C10_write_folder_witness :
    FileDownloader.download ⟨Option.none, "elsewhere/"⟩
        (some "https://cdn/x/File_1.7z?md5=1") Option.none [[1, 2]] =
      .ok ("mod_downloads/" ++ resolveFileName "https://cdn/x/File_1.7z?md5=1",
        writtenFile [[1, 2]], tqdmEvents [[1, 2]]) :=
  (C10_write_folder Option.none "elsewhere/" "x/" (by decide)
    (some "https://cdn/x/File_1.7z?md5=1") Option.none [[1, 2]]
    "https://cdn/x/File_1.7z?md5=1").2

/-! ## Claim C1 -/

/-- C1 counterexample: `fetchMetadata([1,2], "skyrim")` where id 1
succeeds and id 2 returns an HTTP 404.  Id 1's response decodes fine
(its aggregation step succeeds, keyed by the body's mod id), yet
`import_mod_info` returns a raised `KeyError` — not an aggregated result
with a `FetchError` entry under key 2 — so id 2's failure aborts the
batch and discards id 1's successful result. -/
theorem C1_counterexample :
    modEntry (respOf envC1 "skyrim" 1) =
      .ok (JsonVal.num 1,
        JsonVal.objCons "mod_id" (JsonVal.num 1)
          (JsonVal.objCons "name" (JsonVal.str "A") JsonVal.objNil)) ∧
    import_mod_info envC1 "k" "skyrim" [1, 2] = .error .keyError :=
  ⟨rfl, rfl⟩

/-- C1 amended: the aggregation is keyed by the `mod_id` embedded in
each decoded response body, not by the requested id — every entry of a
successfully returned dict arises as the body-derived key/body pair of
some requested id's response — and it is not failure-tolerant: if any
requested id's response fails its aggregation step (undecodable body or
missing `mod_id` field, e.g. after a non-success outcome), the whole
batch call fails, discarding every other id's result. -/
theorem C1_amended (env : Transport) (api_key game_domain : String)
    (ids : List Int) :
    (∀ D, import_mod_info env api_key game_domain ids = .ok D →
      ∀ p ∈ D, ∃ id ∈ ids, modEntry (respOf env game_domain id) = .ok p) ∧
    (∀ id ∈ ids, (modEntry (respOf env game_domain id)).isOk = false →
      (import_mod_info env api_key game_domain ids).isOk = false) := by
  have hk : hasHeader
      [("apikey", api_key), ("accept", "application/json")] "apikey" =
      true := rfl
  have ha : hasHeader
      [("apikey", api_key), ("accept", "application/json")] "accept" =
      true := by
    simp [hasHeader]
  constructor
  · intro D hD p hp
    simp only [import_mod_info] at hD
    cases hgen : generate_mod_info env
        [("apikey", api_key), ("accept", "application/json")]
        game_domain ids with
    | error e => rw [hgen] at hD; cases hD
    | ok rs =>
        rw [hgen] at hD
        have hrs := generate_mod_info_ok env _ game_domain hk ha ids rs hgen
        rcases aggregate_mem rs [] D hD p hp with hmem | ⟨r0, hr0, he0⟩
        · cases hmem
        · subst hrs
          rcases List.mem_map.mp hr0 with ⟨id, hid, hrid⟩
          exact ⟨id, hid, by rw [hrid]; exact he0⟩
  · intro id hid hfail
    simp only [import_mod_info]
    cases hgen : generate_mod_info env
        [("apikey", api_key), ("accept", "application/json")]
        game_domain ids with
    | error e => rfl
    | ok rs =>
        have hrs := generate_mod_info_ok env _ game_domain hk ha ids rs hgen
        exact aggregate_fail rs (respOf env game_domain id) hfail []
          (by rw [hrs]; exact List.mem_map.mpr ⟨id, hid, rfl⟩)

/-- C1 amended, witness: with the concrete C1 transport, requesting only
id 2 (whose body lacks `mod_id`) makes the whole call fail. -/
theorem C1_amended_witness :
    (import_mod_info envC1 "k" "skyrim" [2]).isOk = false :=
  (C1_amended envC1 "k" "skyrim" [2]).2 2 (List.mem_singleton.mpr rfl) rfl

end NMDownloader
